import Mathlib

/-! go-redis-lock: a verification development

A shallow embedding of `redislock.go` (package `main`): the options record and
its default resolution, the bounded acquisition loop of `RedisLock.NewLock`, and
the two handle operations `Lock.Lock` and `Lock.Unlock`.

Conventions of the embedding.

* `int32` and `time.Duration` (an `int64` count of nanoseconds) are integers;
  the only arithmetic that can leave its range is the attempts counter, which
  is reduced with `wrap32` after every operation, as Go's `int32` wraps.
* The store client is an interface in the source.  Here it is a record of two
  transition functions over a client state `σ`; every call returns the pair
  that `.Result()` yields together with the next client state.
* Each operation also yields the list of events it performed on the client and
  on the retry timer, in program order.
-/

set_option linter.dupNamespace false

namespace GoRedisLock

/-! Go values -/

/-- Two's-complement reduction of an integer to the `int32` range. -/
def wrap32 (x : Int) : Int := (x + 2147483648) % 4294967296 - 2147483648

/-- The constant `time.Millisecond`, in nanoseconds. -/
def Millisecond : Int := 1000000

/-- The constant `time.Second`, in nanoseconds. -/
def Second : Int := 1000000000

/-- Go `error` values: `errors.New`-style values carrying only a message, and
the values `fmt.Errorf` builds for a format with one `%w`, which carry the
message and the wrapped error.  Errors coming from the store are arbitrary
values of this type. -/
inductive GoError where
  | errorString (s : String)
  | wrapError (msg : String) (err : GoError)
  deriving DecidableEq, Repr

/-- The method `Error()`. -/
def GoError.Error : GoError → String
  | .errorString s => s
  | .wrapError msg _ => msg

/-- The method `Unwrap()`, as seen through `errors.Unwrap`. -/
def GoError.Unwrap : GoError → Option GoError
  | .errorString _ => none
  | .wrapError _ err => some err

/-- The pieces of a format string as `fmt.Errorf` is used in the source:
literal text, `%s` applied to a string, `%w` applied to an error. -/
inductive FmtPiece where
  | lit (s : String)
  | str (arg : String)
  | wrapped (err : GoError)
  deriving DecidableEq, Repr

/-- The text a piece contributes to the message. -/
def FmtPiece.render : FmtPiece → String
  | .lit s => s
  | .str arg => arg
  | .wrapped err => err.Error

/-- The first `%w` operand of a format, if any. -/
def firstWrapped : List FmtPiece → Option GoError
  | [] => none
  | .wrapped err :: _ => some err
  | _ :: rest => firstWrapped rest

/-- The function `fmt.Errorf` on the formats of the source (at most one `%w`). -/
def Errorf (pieces : List FmtPiece) : GoError :=
  let msg := String.join (pieces.map FmtPiece.render)
  match firstWrapped pieces with
  | some err => .wrapError msg err
  | none => .errorString msg

/-! Options -/

/-- The struct `RedisLockOptions`; `opts *RedisLockOptions` is this record
behind a pointer. -/
structure RedisLockOptions where
  RetryCount : Int
  RetryDelay : Int
  KeyExpiration : Int
  deriving DecidableEq, Repr

/-- The fields hold values of their Go types (`int32`, `int64`). -/
def RedisLockOptions.InRange (opt : RedisLockOptions) : Prop :=
  (-2147483648 ≤ opt.RetryCount ∧ opt.RetryCount ≤ 2147483647) ∧
  (-9223372036854775808 ≤ opt.RetryDelay ∧ opt.RetryDelay ≤ 9223372036854775807) ∧
  (-9223372036854775808 ≤ opt.KeyExpiration ∧ opt.KeyExpiration ≤ 9223372036854775807)

instance (opt : RedisLockOptions) : Decidable opt.InRange := by
  unfold RedisLockOptions.InRange
  exact inferInstance

/-- The method `(*RedisLockOptions).init`: the record after the in-place update. -/
def RedisLockOptions.init (opt : RedisLockOptions) : RedisLockOptions :=
  let opt := if opt.RetryCount = 0 then { opt with RetryCount := 0 } else opt
  let opt := if opt.RetryDelay = 0 then { opt with RetryDelay := 100 * Millisecond } else opt
  let opt := if opt.KeyExpiration = 0 then { opt with KeyExpiration := 300 * Second } else opt
  opt

/-! The store client -/

/-- What `(*redis.BoolCmd).Result()` returns. -/
structure BoolResult where
  val : Bool
  err : Option GoError
  deriving DecidableEq, Repr

/-- What `(*redis.IntCmd).Result()` returns. -/
structure IntResult where
  val : Int
  err : Option GoError
  deriving DecidableEq, Repr

/-- The interface `RedisLockClient`, over a client state `σ`.  The `value`
argument of `SetNX` is an `interface{}`; the source only ever passes the
integer `1`. -/
structure RedisLockClient (σ : Type) where
  SetNX : String → Int → Int → σ → BoolResult × σ
  Del : List String → σ → IntResult × σ

/-- What an operation did, in program order. -/
inductive Event where
  | newTimer (d : Int)
  | setNX (key : String) (value : Int) (expiration : Int)
  | del (keys : List String)
  | recvTimer
  | resetTimer (d : Int)
  | stopTimer
  deriving DecidableEq, Repr

/-- The struct `Lock`. -/
structure Lock (σ : Type) where
  client : RedisLockClient σ
  key : String

/-- The struct `RedisLock` (receiver of `NewLock`). -/
structure RedisLock (σ : Type) where
  client : RedisLockClient σ

/-- The function `NewRedisLock`. -/
def NewRedisLock {σ : Type} (client : RedisLockClient σ) : RedisLock σ :=
  ⟨client⟩

/-- What `NewLock` returns (`locker`, `err`), with the client state it leaves
and the events it performed. -/
structure NewLockResult (σ : Type) where
  locker : Option (Lock σ)
  err : Option GoError
  state : σ
  trace : List Event

/-- What `Lock` and `Unlock` return (`err`), with the client state they leave
and the events they performed. -/
structure OpResult (σ : Type) where
  err : Option GoError
  state : σ
  trace : List Event

/-- Put events in front of the trace of a result. -/
def NewLockResult.after {σ : Type} (evs : List Event) (r : NewLockResult σ) :
    NewLockResult σ :=
  { r with trace := evs ++ r.trace }

/-- The `for` loop of `NewLock` (lines 68 to 94), entered with the current
value of `attempts` and the current client state. -/
def NewLock.loop {σ : Type} (client : RedisLockClient σ) (key : String)
    (opts : RedisLockOptions) (attempts : Int) (s : σ) : NewLockResult σ :=
  let call := client.SetNX key 1 opts.KeyExpiration s
  let ev := Event.setNX key 1 opts.KeyExpiration
  match call.1.err with
  | some err =>
    let attempts := wrap32 (attempts - 1)
    if _h : attempts ≤ 0 then
      ⟨none, some (Errorf [.lit "NewLock err ", .wrapped err]), call.2, [ev]⟩
    else
      (NewLock.loop client key opts attempts call.2).after
        [ev, .recvTimer, .resetTimer opts.RetryDelay]
  | none =>
    if call.1.val then
      ⟨some ⟨client, key⟩, none, call.2, [ev]⟩
    else
      let attempts := wrap32 (attempts - 1)
      if _h : attempts ≤ 0 then
        ⟨none, some (Errorf [.lit "NewLock redis lock ", .str key, .lit " key exist"]),
          call.2, [ev]⟩
      else
        (NewLock.loop client key opts attempts call.2).after
          [ev, .recvTimer, .resetTimer opts.RetryDelay]
termination_by (wrap32 (attempts - 1)).toNat
decreasing_by
  all_goals
    simp only [attempts, wrap32] at _h ⊢
    omega

/-- The method `(*RedisLock).NewLock` called with a non-nil `opts`; the
argument is the record `opts` points to. -/
def RedisLock.NewLock {σ : Type} (rl : RedisLock σ) (key : String)
    (opts : RedisLockOptions) (s : σ) : NewLockResult σ :=
  let opts := opts.init
  let attempts := wrap32 (opts.RetryCount + 1)
  let r := NewLock.loop rl.client key opts attempts s
  { r with trace := Event.newTimer opts.RetryDelay :: r.trace ++ [Event.stopTimer] }

/-- The method `(*Lock).Lock`. -/
def Lock.Lock {σ : Type} (l : GoRedisLock.Lock σ) (s : σ) : OpResult σ :=
  let call := l.client.SetNX l.key 1 0 s
  let ev := Event.setNX l.key 1 0
  match call.1.err with
  | some err =>
    ⟨some (Errorf [.lit "Lock ", .str l.key, .lit " key ", .wrapped err]), call.2, [ev]⟩
  | none =>
    if !call.1.val then
      ⟨some (Errorf [.lit "Lock redis lock ", .str l.key, .lit " key exist"]), call.2, [ev]⟩
    else
      ⟨none, call.2, [ev]⟩

/-- The method `(*Lock).Unlock`. -/
def Lock.Unlock {σ : Type} (l : GoRedisLock.Lock σ) (s : σ) : OpResult σ :=
  let call := l.client.Del [l.key] s
  let ev := Event.del [l.key]
  match call.1.err with
  | some err =>
    ⟨some (Errorf [.lit "Unlock ", .str l.key, .lit " key ", .wrapped err]), call.2, [ev]⟩
  | none => ⟨none, call.2, [ev]⟩

/-- How a Go call ends: it returns, or it panics with a run-time error. -/
inductive Outcome (α : Type) where
  | returned (a : α)
  | panicked (msg : String)

/-- The method `(*RedisLock).NewLock` as called with the pointer `opts`, which
may be nil: `opts.init()` reads `opt.RetryCount` through it first. -/
def RedisLock.NewLockPtr {σ : Type} (rl : RedisLock σ) (key : String)
    (opts : Option RedisLockOptions) (s : σ) : Outcome (NewLockResult σ) :=
  match opts with
  | none => .panicked "invalid memory address or nil pointer dereference"
  | some o => .returned (rl.NewLock key o s)

/-! Clients to run the operations against -/

/-- A client that answers from a script: its state counts the calls made so
far, and the answer to a call is the script's entry at that count. -/
def scriptedClient (setnx : Nat → BoolResult) (del : Nat → IntResult) :
    RedisLockClient Nat where
  SetNX := fun _ _ _ n => (setnx n, n + 1)
  Del := fun _ n => (del n, n + 1)

/-- An entry of the in-memory store: the marker value and the time-to-live it
was created with (nanoseconds left; `0` is no expiration). -/
structure Entry where
  value : Int
  ttl : Int
  deriving DecidableEq, Repr

/-- The in-memory store: the entries present, most recently created first. -/
abbrev Store := List (String × Entry)

/-- The entry held under a key, if the key is present. -/
def Store.get (st : Store) (key : String) : Option Entry :=
  List.lookup key st

/-- Remove a key. -/
def Store.remove (st : Store) (key : String) : Store :=
  st.filter (fun p => !(p.1 == key))

/-- Modelled from the spec: the store's `createIfAbsent(key, value, ttl)`
(spec section 6; the store itself is an external collaborator, absent from
the source).  It sets the key only if it did not already exist, reports whether it
was newly created, and never errors. -/
def Store.createIfAbsent (key : String) (value : Int) (ttl : Int) (st : Store) :
    BoolResult × Store :=
  match st.get key with
  | some _ => (⟨false, none⟩, st)
  | none => (⟨true, none⟩, (key, ⟨value, ttl⟩) :: st)

/-- Modelled from the spec: the store's `delete(key...)` (spec section 6).
Unconditional removal; a key that is not present is not an error and
contributes 0 to the count. -/
def Store.delete (keys : List String) (st : Store) : IntResult × Store :=
  let r := keys.foldl
    (fun (acc : Int × Store) k =>
      if (acc.2.get k).isSome then (acc.1 + 1, acc.2.remove k) else acc)
    (0, st)
  (⟨r.1, none⟩, r.2)

/-- Modelled from the spec: the passing of time at the store (spec section 6).
A key created with `ttl > 0` self-expires once that duration has passed; a key
with `ttl = 0` persists. -/
def Store.elapse (d : Int) (st : Store) : Store :=
  (st.filter (fun p => !(decide (0 < p.2.ttl) && decide (p.2.ttl ≤ d)))).map
    (fun p => if 0 < p.2.ttl then (p.1, { p.2 with ttl := p.2.ttl - d }) else p)

/-- The in-memory store as a client. -/
def memClient : RedisLockClient Store where
  SetNX := Store.createIfAbsent
  Del := Store.delete

/-! Vocabulary of the statements -/

/-- The client state after `n` calls `SetNX(key, 1, expiration)` from `s`. -/
def stateAfter {σ : Type} (client : RedisLockClient σ) (key : String) (expiration : Int) :
    Nat → σ → σ
  | 0, s => s
  | n + 1, s => stateAfter client key expiration n (client.SetNX key 1 expiration s).2

/-- The response to the call number `i` (counted from 0) of a run of calls
`SetNX(key, 1, expiration)` started in state `s`. -/
def responseAt {σ : Type} (client : RedisLockClient σ) (key : String) (expiration : Int)
    (s : σ) (i : Nat) : BoolResult :=
  (client.SetNX key 1 expiration (stateAfter client key expiration i s)).1

/-- The response that acquires the lock: `(true, nil)`. -/
def acquired : BoolResult := ⟨true, none⟩

/-- The response of a contended key: `(false, nil)`. -/
def contended : BoolResult := ⟨false, none⟩

/-- The error `NewLock` returns on contention. -/
def newLockKeyExist (key : String) : GoError :=
  .errorString ("NewLock redis lock " ++ key ++ " key exist")

/-- The error `Lock` returns on contention. -/
def lockKeyExist (key : String) : GoError :=
  .errorString ("Lock redis lock " ++ key ++ " key exist")

/-- The error `NewLock` returns when the attempt that used up the budget got
the response `r`. -/
def newLockFailure (key : String) (r : BoolResult) : GoError :=
  match r.err with
  | some err => .wrapError ("NewLock err " ++ err.Error) err
  | none => newLockKeyExist key

/-- The number of `SetNX` calls in a trace. -/
def setNXCalls (tr : List Event) : Nat :=
  tr.countP (fun e => match e with | .setNX _ _ _ => true | _ => false)

/-- The number of store calls (`SetNX` or `Del`) in a trace. -/
def storeCalls (tr : List Event) : Nat :=
  tr.countP (fun e => match e with | .setNX _ _ _ => true | .del _ => true | _ => false)

/-- The number of waits on the timer channel in a trace. -/
def waits (tr : List Event) : Nat :=
  tr.countP (fun e => match e with | .recvTimer => true | _ => false)

/-- The events of `n` failed attempts that are each followed by a retry. -/
def retries (key : String) (opts : RedisLockOptions) : Nat → List Event
  | 0 => []
  | n + 1 =>
    [.setNX key 1 opts.KeyExpiration, .recvTimer, .resetTimer opts.RetryDelay] ++
      retries key opts n

/-- The trace of a `NewLock` call that makes `n + 1` attempts, under resolved
options `opts`. -/
def newLockTrace (key : String) (opts : RedisLockOptions) (n : Nat) : List Event :=
  .newTimer opts.RetryDelay ::
    (retries key opts n ++ [.setNX key 1 opts.KeyExpiration]) ++ [.stopTimer]

/-- A sequence of `NewLock` calls on one key, one per options record, each
started in the client state the previous one left; the results in order. -/
def runNewLocks {σ : Type} (client : RedisLockClient σ) (key : String) :
    List RedisLockOptions → σ → List (NewLockResult σ)
  | [], _ => []
  | o :: os, s =>
    (NewRedisLock client).NewLock key o s ::
      runNewLocks client key os ((NewRedisLock client).NewLock key o s).state

/-- The text `part` occurs somewhere in the text `msg`. -/
def occursIn (part msg : String) : Prop :=
  part.toList <:+: msg.toList

instance (part msg : String) : Decidable (occursIn part msg) := by
  unfold occursIn
  exact inferInstance

/-- The number of attempts the loop makes when none succeeds, entered with the
counter at `attempts`. -/
def budget (attempts : Int) : Nat :=
  if wrap32 (attempts - 1) ≤ 0 then 1 else (wrap32 (attempts - 1)).toNat + 1

/-! Unfolding the loop -/

theorem Errorf_newLock_err (err : GoError) :
    Errorf [.lit "NewLock err ", .wrapped err] = .wrapError ("NewLock err " ++ err.Error) err := by
  simp [Errorf, firstWrapped, FmtPiece.render, String.join]

theorem Errorf_newLock_exist (key : String) :
    Errorf [.lit "NewLock redis lock ", .str key, .lit " key exist"] = newLockKeyExist key := by
  simp [Errorf, firstWrapped, FmtPiece.render, String.join, newLockKeyExist]

theorem Errorf_lock_exist (key : String) :
    Errorf [.lit "Lock redis lock ", .str key, .lit " key exist"] = lockKeyExist key := by
  simp [Errorf, firstWrapped, FmtPiece.render, String.join, lockKeyExist]

theorem Errorf_lock_err (key : String) (err : GoError) :
    Errorf [.lit "Lock ", .str key, .lit " key ", .wrapped err] =
      .wrapError ("Lock " ++ key ++ " key " ++ err.Error) err := by
  simp [Errorf, firstWrapped, FmtPiece.render, String.join]

theorem Errorf_unlock_err (key : String) (err : GoError) :
    Errorf [.lit "Unlock ", .str key, .lit " key ", .wrapped err] =
      .wrapError ("Unlock " ++ key ++ " key " ++ err.Error) err := by
  simp [Errorf, firstWrapped, FmtPiece.render, String.join]

section Loop

variable {σ : Type} (client : RedisLockClient σ) (key : String) (opts : RedisLockOptions)

/-- An attempt that gets `(true, nil)` ends the loop with a handle. -/
theorem loop_acquired (attempts : Int) (s : σ)
    (h : (client.SetNX key 1 opts.KeyExpiration s).1 = acquired) :
    NewLock.loop client key opts attempts s =
      ⟨some ⟨client, key⟩, none, (client.SetNX key 1 opts.KeyExpiration s).2,
        [.setNX key 1 opts.KeyExpiration]⟩ := by
  rw [NewLock.loop]
  simp [h, acquired]

/-- A failed attempt that uses up the budget ends the loop with an error. -/
theorem loop_exhausted (attempts : Int) (s : σ)
    (h : (client.SetNX key 1 opts.KeyExpiration s).1 ≠ acquired)
    (ha : wrap32 (attempts - 1) ≤ 0) :
    NewLock.loop client key opts attempts s =
      ⟨none, some (newLockFailure key (client.SetNX key 1 opts.KeyExpiration s).1),
        (client.SetNX key 1 opts.KeyExpiration s).2, [.setNX key 1 opts.KeyExpiration]⟩ := by
  rw [NewLock.loop]
  rcases hr : (client.SetNX key 1 opts.KeyExpiration s).1 with ⟨v, e⟩
  rw [hr] at h
  cases e with
  | some err => simp [ha, newLockFailure, Errorf_newLock_err]
  | none =>
    cases v with
    | true => exact absurd rfl h
    | false => simp [ha, newLockFailure, Errorf_newLock_exist]

/-- A failed attempt with budget left waits on the timer, re-arms it and goes
round the loop again with the counter decremented. -/
theorem loop_retry (attempts : Int) (s : σ)
    (h : (client.SetNX key 1 opts.KeyExpiration s).1 ≠ acquired)
    (ha : 0 < wrap32 (attempts - 1)) :
    NewLock.loop client key opts attempts s =
      (NewLock.loop client key opts (wrap32 (attempts - 1))
          (client.SetNX key 1 opts.KeyExpiration s).2).after
        [.setNX key 1 opts.KeyExpiration, .recvTimer, .resetTimer opts.RetryDelay] := by
  rw [NewLock.loop]
  have ha' : ¬ wrap32 (attempts - 1) ≤ 0 := not_le.mpr ha
  rcases hr : (client.SetNX key 1 opts.KeyExpiration s).1 with ⟨v, e⟩
  rw [hr] at h
  cases e with
  | some err => simp [ha']
  | none =>
    cases v with
    | true => exact absurd rfl h
    | false => simp [ha']

theorem budget_pos (attempts : Int) : 1 ≤ budget attempts := by
  unfold budget
  split <;> omega

theorem budget_eq_one (attempts : Int) (h : wrap32 (attempts - 1) ≤ 0) :
    budget attempts = 1 := by
  simp [budget, h]

theorem budget_step (attempts : Int) (h : 0 < wrap32 (attempts - 1)) :
    budget attempts = budget (wrap32 (attempts - 1)) + 1 := by
  unfold budget
  simp only [wrap32] at h ⊢
  split_ifs <;> omega

/-- With `attempts := opts.RetryCount + 1` for a non-negative `int32` retry
count, the budget is the retry count plus one, also at the top of the range. -/
theorem budget_init (n : Int) (h0 : 0 ≤ n) (h1 : n ≤ 2147483647) :
    budget (wrap32 (n + 1)) = n.toNat + 1 := by
  unfold budget
  simp only [wrap32]
  split_ifs <;> omega

/-- With a negative `int32` retry count the budget is a single attempt. -/
theorem budget_init_neg (n : Int) (h0 : -2147483648 ≤ n) (h1 : n < 0) :
    budget (wrap32 (n + 1)) = 1 := by
  unfold budget
  simp only [wrap32]
  split_ifs <;> omega

theorem responseAt_zero (s : σ) :
    responseAt client key opts.KeyExpiration s 0 =
      (client.SetNX key 1 opts.KeyExpiration s).1 := rfl

theorem responseAt_succ (s : σ) (j : Nat) :
    responseAt client key opts.KeyExpiration s (j + 1) =
      responseAt client key opts.KeyExpiration (client.SetNX key 1 opts.KeyExpiration s).2 j :=
  rfl

/-- The loop on a run whose first acquiring response is number `i`, within
the budget: `i` retries, then the attempt that returns the handle. -/
theorem loop_first_acquired (i : Nat) :
    ∀ (attempts : Int) (s : σ), i < budget attempts →
      responseAt client key opts.KeyExpiration s i = acquired →
      (∀ j, j < i → responseAt client key opts.KeyExpiration s j ≠ acquired) →
      NewLock.loop client key opts attempts s =
        ⟨some ⟨client, key⟩, none, stateAfter client key opts.KeyExpiration (i + 1) s,
          retries key opts i ++ [.setNX key 1 opts.KeyExpiration]⟩ := by
  induction i with
  | zero =>
    intro attempts s _ h _
    rw [loop_acquired client key opts attempts s h]
    rfl
  | succ i ih =>
    intro attempts s hb h hbefore
    have h0 : (client.SetNX key 1 opts.KeyExpiration s).1 ≠ acquired :=
      hbefore 0 (Nat.succ_pos i)
    have hpos : 0 < wrap32 (attempts - 1) := by
      by_contra hneg
      rw [budget_eq_one attempts (not_lt.mp hneg)] at hb
      omega
    rw [loop_retry client key opts attempts s h0 hpos]
    have hb' : i < budget (wrap32 (attempts - 1)) := by
      rw [budget_step attempts hpos] at hb
      omega
    rw [ih (wrap32 (attempts - 1)) (client.SetNX key 1 opts.KeyExpiration s).2 hb' h
      (fun j hj => hbefore (j + 1) (Nat.succ_lt_succ hj))]
    rfl

/-- The loop on a run with no acquiring response within the budget of `n + 1`
attempts: `n` retries, then the attempt whose failure is returned. -/
theorem loop_none_acquired (n : Nat) :
    ∀ (attempts : Int) (s : σ), budget attempts = n + 1 →
      (∀ j, j ≤ n → responseAt client key opts.KeyExpiration s j ≠ acquired) →
      NewLock.loop client key opts attempts s =
        ⟨none, some (newLockFailure key (responseAt client key opts.KeyExpiration s n)),
          stateAfter client key opts.KeyExpiration (n + 1) s,
          retries key opts n ++ [.setNX key 1 opts.KeyExpiration]⟩ := by
  induction n with
  | zero =>
    intro attempts s hb hall
    have hle : wrap32 (attempts - 1) ≤ 0 := by
      by_contra hneg
      have := budget_step attempts (not_le.mp hneg)
      have := budget_pos (wrap32 (attempts - 1))
      omega
    rw [loop_exhausted client key opts attempts s (hall 0 (Nat.le_refl 0)) hle]
    rfl
  | succ n ih =>
    intro attempts s hb hall
    have hpos : 0 < wrap32 (attempts - 1) := by
      by_contra hneg
      rw [budget_eq_one attempts (not_lt.mp hneg)] at hb
      omega
    rw [loop_retry client key opts attempts s (hall 0 (Nat.zero_le _)) hpos]
    have hb' : budget (wrap32 (attempts - 1)) = n + 1 := by
      rw [budget_step attempts hpos] at hb
      omega
    rw [ih (wrap32 (attempts - 1)) (client.SetNX key 1 opts.KeyExpiration s).2 hb'
      (fun j hj => hall (j + 1) (Nat.succ_le_succ hj))]
    rfl

end Loop

/-! `NewLock` as a whole -/

section NewLock

variable {σ : Type} (client : RedisLockClient σ) (key : String) (opts : RedisLockOptions)

/-- The effect of `init` field by field. -/
theorem init_eq :
    opts.init =
      ⟨opts.RetryCount,
        if opts.RetryDelay = 0 then 100 * Millisecond else opts.RetryDelay,
        if opts.KeyExpiration = 0 then 300 * Second else opts.KeyExpiration⟩ := by
  rcases opts with ⟨c, d, e⟩
  simp only [RedisLockOptions.init]
  by_cases hc : c = 0 <;> by_cases hd : d = 0 <;> by_cases he : e = 0 <;> simp [hc, hd, he]

theorem init_RetryCount : opts.init.RetryCount = opts.RetryCount := by
  rw [init_eq]

theorem setNXCalls_retries (o : RedisLockOptions) (n : Nat) (tl : List Event) :
    setNXCalls (retries key o n ++ tl) = n + setNXCalls tl := by
  induction n with
  | zero => simp [retries]
  | succ n ih =>
    simp only [setNXCalls] at ih
    simp [retries, setNXCalls, List.countP_cons, ih]
    omega

theorem storeCalls_retries (o : RedisLockOptions) (n : Nat) (tl : List Event) :
    storeCalls (retries key o n ++ tl) = n + storeCalls tl := by
  induction n with
  | zero => simp [retries]
  | succ n ih =>
    simp only [storeCalls] at ih
    simp [retries, storeCalls, List.countP_cons, ih]
    omega

theorem waits_retries (o : RedisLockOptions) (n : Nat) (tl : List Event) :
    waits (retries key o n ++ tl) = n + waits tl := by
  induction n with
  | zero => simp [retries]
  | succ n ih =>
    simp only [waits] at ih
    simp [retries, waits, List.countP_cons, ih]
    omega

theorem setNXCalls_newLockTrace (o : RedisLockOptions) (n : Nat) :
    setNXCalls (newLockTrace key o n) = n + 1 := by
  have h := setNXCalls_retries key o n [.setNX key 1 o.KeyExpiration, .stopTimer]
  simp only [setNXCalls] at h
  simp [newLockTrace, setNXCalls, List.countP_cons, h]

theorem storeCalls_newLockTrace (o : RedisLockOptions) (n : Nat) :
    storeCalls (newLockTrace key o n) = n + 1 := by
  have h := storeCalls_retries key o n [.setNX key 1 o.KeyExpiration, .stopTimer]
  simp only [storeCalls] at h
  simp [newLockTrace, storeCalls, List.countP_cons, h]

theorem waits_newLockTrace (o : RedisLockOptions) (n : Nat) :
    waits (newLockTrace key o n) = n := by
  have h := waits_retries key o n [.setNX key 1 o.KeyExpiration, .stopTimer]
  simp only [waits] at h
  simp [newLockTrace, waits, List.countP_cons, h]

/-- The call `NewLock` on a run whose first acquiring response is number `i`,
within the budget. -/
theorem newLock_first_acquired (s : σ) (i : Nat)
    (hb : i < budget (wrap32 (opts.init.RetryCount + 1)))
    (h : responseAt client key opts.init.KeyExpiration s i = acquired)
    (hbefore : ∀ j, j < i → responseAt client key opts.init.KeyExpiration s j ≠ acquired) :
    (NewRedisLock client).NewLock key opts s =
      ⟨some ⟨client, key⟩, none, stateAfter client key opts.init.KeyExpiration (i + 1) s,
        newLockTrace key opts.init i⟩ := by
  unfold RedisLock.NewLock NewRedisLock
  simp only
  rw [loop_first_acquired client key opts.init i _ s hb h hbefore]
  simp [newLockTrace]

/-- The call `NewLock` on a run with no acquiring response within the budget
of `n + 1` attempts. -/
theorem newLock_none_acquired (s : σ) (n : Nat)
    (hb : budget (wrap32 (opts.init.RetryCount + 1)) = n + 1)
    (hall : ∀ j, j ≤ n → responseAt client key opts.init.KeyExpiration s j ≠ acquired) :
    (NewRedisLock client).NewLock key opts s =
      ⟨none, some (newLockFailure key (responseAt client key opts.init.KeyExpiration s n)),
        stateAfter client key opts.init.KeyExpiration (n + 1) s,
        newLockTrace key opts.init n⟩ := by
  unfold RedisLock.NewLock NewRedisLock
  simp only
  rw [loop_none_acquired client key opts.init n _ s hb hall]
  simp [newLockTrace]

/-- Among the responses up to number `n`, if one acquires then there is a
first one that does. -/
theorem exists_first_acquired (resp : Nat → BoolResult) (n : Nat)
    (h : ∃ i, i ≤ n ∧ resp i = acquired) :
    ∃ i, i ≤ n ∧ resp i = acquired ∧ ∀ j, j < i → resp j ≠ acquired := by
  classical
  obtain ⟨i, hi, hacq⟩ := h
  have hex : ∃ i, resp i = acquired := ⟨i, hacq⟩
  refine ⟨Nat.find hex, ?_, Nat.find_spec hex, ?_⟩
  · exact le_trans (Nat.find_min' hex hacq) hi
  · intro j hj
    exact Nat.find_min hex hj

end NewLock

/-! The in-memory store -/

section Memory

theorem Store.get_cons_self (key : String) (e : Entry) (st : Store) :
    Store.get ((key, e) :: st) key = some e := by
  simp [Store.get, List.lookup]

theorem Store.get_cons_ne (key k : String) (e : Entry) (st : Store) (h : k ≠ key) :
    Store.get ((key, e) :: st) k = Store.get st k := by
  have hb : (k == key) = false := by simpa using h
  simp [Store.get, List.lookup, hb]

theorem Store.remove_of_get_none (key : String) (st : Store) (h : Store.get st key = none) :
    Store.remove st key = st := by
  induction st with
  | nil => rfl
  | cons p st ih =>
    rcases p with ⟨k, e⟩
    by_cases hk : key = k
    · subst hk
      rw [Store.get_cons_self] at h
      exact absurd h (by simp)
    · rw [Store.get_cons_ne k key e st hk] at h
      have hb : (k == key) = false := by simpa using fun h' => hk h'.symm
      simp only [Store.remove] at ih ⊢
      simp [List.filter_cons, hb, ih h]

theorem Store.remove_cons_self (key : String) (e : Entry) (st : Store) :
    Store.remove ((key, e) :: st) key = Store.remove st key := by
  simp [Store.remove, List.filter_cons]

theorem Store.get_remove_self (key : String) (st : Store) :
    Store.get (Store.remove st key) key = none := by
  induction st with
  | nil => rfl
  | cons p st ih =>
    rcases p with ⟨k, e⟩
    by_cases hk : k = key
    · subst hk
      rw [Store.remove_cons_self]
      exact ih
    · have hb : (k == key) = false := by simpa using hk
      have hrm : Store.remove ((k, e) :: st) key = (k, e) :: Store.remove st key := by
        simp [Store.remove, List.filter_cons, hb]
      rw [hrm, Store.get_cons_ne k key e _ (fun h => hk h.symm)]
      exact ih

theorem Store.delete_present (key : String) (st : Store) (e : Entry)
    (h : Store.get st key = some e) :
    Store.delete [key] st = (⟨1, none⟩, Store.remove st key) := by
  simp [Store.delete, h]

theorem Store.delete_absent (key : String) (st : Store) (h : Store.get st key = none) :
    Store.delete [key] st = (⟨0, none⟩, st) := by
  simp [Store.delete, h]

theorem Store.createIfAbsent_absent (key : String) (value ttl : Int) (st : Store)
    (h : Store.get st key = none) :
    Store.createIfAbsent key value ttl st = (acquired, (key, ⟨value, ttl⟩) :: st) := by
  simp [Store.createIfAbsent, h, acquired]

theorem Store.createIfAbsent_present (key : String) (value ttl : Int) (st : Store) (e : Entry)
    (h : Store.get st key = some e) :
    Store.createIfAbsent key value ttl st = (contended, st) := by
  simp [Store.createIfAbsent, h, contended]

theorem stateAfter_present (key : String) (expiration : Int) (st : Store) (e : Entry)
    (h : Store.get st key = some e) (n : Nat) :
    stateAfter memClient key expiration n st = st := by
  induction n with
  | zero => rfl
  | succ n ih =>
    show stateAfter memClient key expiration n
      (Store.createIfAbsent key 1 expiration st).2 = st
    rw [Store.createIfAbsent_present key 1 expiration st e h]
    exact ih

theorem responseAt_present (key : String) (expiration : Int) (st : Store) (e : Entry)
    (h : Store.get st key = some e) (n : Nat) :
    responseAt memClient key expiration st n = contended := by
  show (Store.createIfAbsent key 1 expiration (stateAfter memClient key expiration n st)).1 = _
  rw [stateAfter_present key expiration st e h n,
    Store.createIfAbsent_present key 1 expiration st e h]

/-- On the in-memory store, `NewLock` on an absent key succeeds on its first
attempt and adds the key with the resolved expiration. -/
theorem newLock_mem_absent (key : String) (opts : RedisLockOptions) (st : Store)
    (h : Store.get st key = none) :
    (NewRedisLock memClient).NewLock key opts st =
      ⟨some ⟨memClient, key⟩, none, (key, ⟨1, opts.init.KeyExpiration⟩) :: st,
        newLockTrace key opts.init 0⟩ := by
  have hacq : responseAt memClient key opts.init.KeyExpiration st 0 = acquired := by
    show (Store.createIfAbsent key 1 opts.init.KeyExpiration st).1 = _
    rw [Store.createIfAbsent_absent key 1 _ st h]
  rw [newLock_first_acquired memClient key opts st 0 (budget_pos _) hacq
    (fun j hj => absurd hj (Nat.not_lt_zero j))]
  show NewLockResult.mk _ _ (Store.createIfAbsent key 1 opts.init.KeyExpiration st).2 _ = _
  rw [Store.createIfAbsent_absent key 1 _ st h]

/-- On the in-memory store, `NewLock` on a present key uses up its budget and
fails with the "key exist" error, leaving the store as it was. -/
theorem newLock_mem_present (key : String) (opts : RedisLockOptions) (st : Store) (e : Entry)
    (h : Store.get st key = some e) :
    (NewRedisLock memClient).NewLock key opts st =
      ⟨none, some (newLockKeyExist key), st,
        newLockTrace key opts.init (budget (wrap32 (opts.init.RetryCount + 1)) - 1)⟩ := by
  have hb : budget (wrap32 (opts.init.RetryCount + 1)) =
      (budget (wrap32 (opts.init.RetryCount + 1)) - 1) + 1 := by
    have := budget_pos (wrap32 (opts.init.RetryCount + 1))
    omega
  rw [newLock_none_acquired memClient key opts st _ hb
    (fun j _ => by rw [responseAt_present key _ st e h j]; decide)]
  rw [responseAt_present key _ st e h, stateAfter_present key _ st e h]
  rfl

/-- Once the key is present, every call of a sequence of `NewLock` calls on
it fails with the "key exist" error and leaves the store as it was. -/
theorem runNewLocks_present (key : String) (st : Store) (e : Entry)
    (h : Store.get st key = some e) (optss : List RedisLockOptions) :
    ∀ r, r ∈ runNewLocks memClient key optss st →
      r.locker = none ∧ r.err = some (newLockKeyExist key) ∧ r.state = st := by
  induction optss with
  | nil =>
    intro r hr
    simp [runNewLocks] at hr
  | cons o os ih =>
    intro r hr
    simp only [runNewLocks, List.mem_cons] at hr
    rw [newLock_mem_present key o st e h] at hr
    rcases hr with hr | hr
    · rw [hr]
      exact ⟨rfl, rfl, rfl⟩
    · exact ih r hr

/-- A sequence of `NewLock` calls on one key has at most one success. -/
theorem runNewLocks_count (key : String) (optss : List RedisLockOptions) :
    ∀ st : Store,
      (runNewLocks memClient key optss st).countP (fun r => r.locker.isSome) ≤ 1 := by
  induction optss with
  | nil =>
    intro st
    simp [runNewLocks]
  | cons o os ih =>
    intro st
    cases hget : Store.get st key with
    | none =>
      have hzero : (runNewLocks memClient key os
          ((key, (⟨1, o.init.KeyExpiration⟩ : Entry)) :: st)).countP
          (fun r => r.locker.isSome) = 0 := by
        rw [List.countP_eq_zero]
        intro r hr
        have := runNewLocks_present key _ _ (Store.get_cons_self key _ st) os r hr
        simp [this.1]
      simp only [runNewLocks, newLock_mem_absent key o st hget, List.countP_cons, hzero]
      simp
    | some e =>
      simp only [runNewLocks, newLock_mem_present key o st e hget, List.countP_cons]
      have := ih st
      simpa using this

end Memory

/-! The acquisition protocol -/

/-- C1: for a resolved retry count `N` with `0 ≤ N` (an `int32`), any key, any
client and any client state, `NewLock` returns a handle, and returns a nil
error, exactly when one of the first `N + 1` responses to `SetNX` is
`(true, nil)`.  When the first such response is number `i` (from 0), the call
makes `i + 1` calls `SetNX` and no other store call, leaves the client in the
state right after that call, performs exactly the events of `i` retries
followed by the acquiring attempt, and returns the handle holding the key
passed in and the client of the factory. -/
theorem newLock_acquires_iff {σ : Type} (client : RedisLockClient σ) (key : String)
    (opts : RedisLockOptions) (s : σ)
    (h0 : 0 ≤ opts.init.RetryCount) (h1 : opts.init.RetryCount ≤ 2147483647) :
    let r := (NewRedisLock client).NewLock key opts s
    let resp := responseAt client key opts.init.KeyExpiration s
    (r.locker.isSome ↔ ∃ i, i ≤ opts.init.RetryCount.toNat ∧ resp i = acquired) ∧
    (r.err = none ↔ ∃ i, i ≤ opts.init.RetryCount.toNat ∧ resp i = acquired) ∧
    (∀ i, i ≤ opts.init.RetryCount.toNat → resp i = acquired →
      (∀ j, j < i → resp j ≠ acquired) →
        setNXCalls r.trace = i + 1 ∧ storeCalls r.trace = i + 1 ∧
        r.trace = newLockTrace key opts.init i ∧
        r.state = stateAfter client key opts.init.KeyExpiration (i + 1) s ∧
        r.locker = some ⟨client, key⟩ ∧ r.err = none) := by
  intro r resp
  have hb := budget_init opts.init.RetryCount h0 h1
  have hfirst : ∀ i, i ≤ opts.init.RetryCount.toNat → resp i = acquired →
      (∀ j, j < i → resp j ≠ acquired) →
      r = ⟨some ⟨client, key⟩, none, stateAfter client key opts.init.KeyExpiration (i + 1) s,
        newLockTrace key opts.init i⟩ := by
    intro i hi hacq hbefore
    exact newLock_first_acquired client key opts s i (by rw [hb]; omega) hacq hbefore
  have hcases : (∃ i, i ≤ opts.init.RetryCount.toNat ∧ resp i = acquired) →
      r.locker.isSome ∧ r.err = none := by
    intro hex
    obtain ⟨i, hi, hacq, hbefore⟩ := exists_first_acquired resp _ hex
    rw [hfirst i hi hacq hbefore]
    exact ⟨rfl, rfl⟩
  have hnone : (¬ ∃ i, i ≤ opts.init.RetryCount.toNat ∧ resp i = acquired) →
      r.locker = none ∧ r.err ≠ none := by
    intro hno
    have hall : ∀ j, j ≤ opts.init.RetryCount.toNat → resp j ≠ acquired :=
      fun j hj hacq => hno ⟨j, hj, hacq⟩
    have hr : r = _ := newLock_none_acquired client key opts s _ hb hall
    rw [hr]
    exact ⟨rfl, by simp⟩
  refine ⟨⟨?_, fun hex => (hcases hex).1⟩, ⟨?_, fun hex => (hcases hex).2⟩, ?_⟩
  · intro hsome
    by_contra hno
    rw [(hnone hno).1] at hsome
    exact absurd hsome (by simp)
  · intro herr
    by_contra hno
    exact (hnone hno).2 herr
  · intro i hi hacq hbefore
    rw [hfirst i hi hacq hbefore]
    exact ⟨setNXCalls_newLockTrace key opts.init i, storeCalls_newLockTrace key opts.init i,
      rfl, rfl, rfl, rfl⟩

/-- C1, at a concrete input: with `RetryCount = 3` and a store that answers
"exists", "exists", "created", ..., the call returns a handle and no error
after exactly three `SetNX` calls. -/
theorem newLock_acquires_iff_witness :
    (0 ≤ (RedisLockOptions.init ⟨3, 0, 0⟩).RetryCount) ∧
    ((RedisLockOptions.init ⟨3, 0, 0⟩).RetryCount ≤ 2147483647) ∧
    ((NewRedisLock (scriptedClient (fun n => if n = 2 then acquired else contended)
        (fun _ => ⟨0, none⟩))).NewLock "lock" ⟨3, 0, 0⟩ 0).locker.isSome ∧
    ((NewRedisLock (scriptedClient (fun n => if n = 2 then acquired else contended)
        (fun _ => ⟨0, none⟩))).NewLock "lock" ⟨3, 0, 0⟩ 0).err = none ∧
    setNXCalls ((NewRedisLock (scriptedClient (fun n => if n = 2 then acquired else contended)
        (fun _ => ⟨0, none⟩))).NewLock "lock" ⟨3, 0, 0⟩ 0).trace = 3 :=
  have h := newLock_acquires_iff
    (scriptedClient (fun n => if n = 2 then acquired else contended) (fun _ => ⟨0, none⟩))
    "lock" ⟨3, 0, 0⟩ 0 (by decide) (by decide)
  ⟨by decide, by decide, h.1.mpr ⟨2, by decide, by decide⟩, h.2.1.mpr ⟨2, by decide, by decide⟩,
    (h.2.2 2 (by decide) (by decide) (by decide)).1⟩

/-- C2: for a retry count `N` with `0 < N` (an `int32`) and any key, when
every `SetNX` call answers `(false, nil)`, `NewLock` makes exactly `N + 1`
calls `SetNX`, with `N` waits in between, and returns no handle and the error
whose text is `NewLock redis lock <key> key exist`. -/
theorem newLock_contended {σ : Type} (client : RedisLockClient σ) (key : String)
    (opts : RedisLockOptions) (s : σ)
    (h0 : 0 < opts.RetryCount) (h1 : opts.RetryCount ≤ 2147483647)
    (hcont : ∀ i, responseAt client key opts.init.KeyExpiration s i = contended) :
    let r := (NewRedisLock client).NewLock key opts s
    setNXCalls r.trace = opts.RetryCount.toNat + 1 ∧
    r.trace = newLockTrace key opts.init opts.RetryCount.toNat ∧
    r.locker = none ∧
    r.err = some (.errorString ("NewLock redis lock " ++ key ++ " key exist")) := by
  intro r
  have hb := budget_init opts.init.RetryCount
    (by rw [init_RetryCount]; omega) (by rw [init_RetryCount]; exact h1)
  have hall : ∀ j, j ≤ opts.init.RetryCount.toNat →
      responseAt client key opts.init.KeyExpiration s j ≠ acquired := by
    intro j _
    rw [hcont j]
    decide
  have hr : r = _ := newLock_none_acquired client key opts s _ hb hall
  rw [hr, hcont, init_RetryCount]
  exact ⟨setNXCalls_newLockTrace key opts.init _, rfl, rfl, rfl⟩

/-- C2, at a concrete input: `RetryCount = 2` against a store that always
answers "exists". -/
theorem newLock_contended_witness :
    (0 < (RedisLockOptions.mk 2 0 0).RetryCount) ∧
    ((RedisLockOptions.mk 2 0 0).RetryCount ≤ 2147483647) ∧
    setNXCalls ((NewRedisLock (scriptedClient (fun _ => contended)
        (fun _ => ⟨0, none⟩))).NewLock "lock" ⟨2, 0, 0⟩ 0).trace = 3 ∧
    ((NewRedisLock (scriptedClient (fun _ => contended)
        (fun _ => ⟨0, none⟩))).NewLock "lock" ⟨2, 0, 0⟩ 0).err =
      some (.errorString "NewLock redis lock lock key exist") :=
  have h := newLock_contended (scriptedClient (fun _ => contended) (fun _ => ⟨0, none⟩))
    "lock" ⟨2, 0, 0⟩ 0 (by decide) (by decide) (fun _ => rfl)
  ⟨by decide, by decide, h.1, h.2.2.2⟩

/-- C3: with `RetryCount = 0`, whatever the retry delay, the key expiration
and the store's response, `NewLock` arms the timer, makes exactly one call
`SetNX`, stops the timer, and never waits.  A store error gives no handle and
the error wrapping it; `(false, nil)` gives no handle and the "key exist"
error; `(true, nil)` gives the handle and no error. -/
theorem newLock_no_retry {σ : Type} (client : RedisLockClient σ) (key : String)
    (delay expiration : Int) (s : σ) :
    let opts : RedisLockOptions := ⟨0, delay, expiration⟩
    let r := (NewRedisLock client).NewLock key opts s
    let call := client.SetNX key 1 opts.init.KeyExpiration s
    r.trace = [.newTimer opts.init.RetryDelay, .setNX key 1 opts.init.KeyExpiration,
      .stopTimer] ∧
    setNXCalls r.trace = 1 ∧ waits r.trace = 0 ∧
    r.state = call.2 ∧
    (∀ e, call.1.err = some e →
      r.locker = none ∧ r.err = some (.wrapError ("NewLock err " ++ e.Error) e)) ∧
    (call.1 = contended →
      r.locker = none ∧
      r.err = some (.errorString ("NewLock redis lock " ++ key ++ " key exist"))) ∧
    (call.1 ≠ acquired → r.locker = none ∧ r.err ≠ none) ∧
    (call.1 = acquired → r.locker = some ⟨client, key⟩ ∧ r.err = none) := by
  intro opts r call
  have hb : budget (wrap32 (opts.init.RetryCount + 1)) = 0 + 1 := by
    rw [init_RetryCount]
    show budget (wrap32 ((0 : Int) + 1)) = 0 + 1
    decide
  by_cases hacq : call.1 = acquired
  · have hr : r = _ :=
      newLock_first_acquired client key opts s 0 (by rw [hb]; omega) hacq
        (fun j hj => absurd hj (Nat.not_lt_zero j))
    rw [hr]
    refine ⟨rfl, rfl, rfl, rfl, ?_, ?_, fun h => absurd hacq h, fun _ => ⟨rfl, rfl⟩⟩
    · intro e he
      rw [hacq] at he
      exact absurd he (by simp [acquired])
    · intro hc
      rw [hacq] at hc
      exact absurd hc (by decide)
  · have hr : r = _ :=
      newLock_none_acquired client key opts s 0 hb
        (fun j hj => by rw [Nat.le_zero.mp hj]; exact hacq)
    rw [hr]
    refine ⟨rfl, rfl, rfl, rfl, ?_, ?_, fun _ => ⟨rfl, by simp⟩, fun h => absurd h hacq⟩
    · intro e he
      have he' : (responseAt client key opts.init.KeyExpiration s 0).err = some e := he
      simp [newLockFailure, he']
    · intro hc
      have hc' : responseAt client key opts.init.KeyExpiration s 0 = contended := hc
      simp [newLockFailure, hc', contended, newLockKeyExist]

/-- C4: `init` on the all-zero options gives `RetryCount = 0`,
`RetryDelay = 100ms` and `KeyExpiration = 300s` (in nanoseconds,
`100000000` and `300000000000`). -/
theorem init_zero :
    RedisLockOptions.init ⟨0, 0, 0⟩ = ⟨0, 100 * Millisecond, 300 * Second⟩ ∧
    (RedisLockOptions.init ⟨0, 0, 0⟩).RetryCount = 0 ∧
    (RedisLockOptions.init ⟨0, 0, 0⟩).RetryDelay = 100000000 ∧
    (RedisLockOptions.init ⟨0, 0, 0⟩).KeyExpiration = 300000000000 := by
  decide

/-- C3, at a concrete input: `RetryCount = 0` against a store that answers
"exists": one call `SetNX`, no wait, no handle, the "key exist" error. -/
theorem newLock_no_retry_witness :
    setNXCalls ((NewRedisLock (scriptedClient (fun _ => contended)
        (fun _ => ⟨0, none⟩))).NewLock "lock" ⟨0, 5, 7⟩ 0).trace = 1 ∧
    waits ((NewRedisLock (scriptedClient (fun _ => contended)
        (fun _ => ⟨0, none⟩))).NewLock "lock" ⟨0, 5, 7⟩ 0).trace = 0 ∧
    ((NewRedisLock (scriptedClient (fun _ => contended)
        (fun _ => ⟨0, none⟩))).NewLock "lock" ⟨0, 5, 7⟩ 0).err =
      some (.errorString "NewLock redis lock lock key exist") :=
  have h := newLock_no_retry (scriptedClient (fun _ => contended) (fun _ => ⟨0, none⟩))
    "lock" 5 7 0
  ⟨h.2.1, h.2.2.1, (h.2.2.2.2.2.1 rfl).2⟩

/-! Against the in-memory store -/

/-- C5: on the in-memory store, for every key absent from the store,
`NewLock(key, all-zero options)` returns the handle on that key and no error
after exactly one call `SetNX` (the only store call), and leaves the store
with that one key added in front, holding the marker `1` with time-to-live
`300s`; every other key reads as before. -/
theorem newLock_mem_default (key : String) (st : Store) (h : Store.get st key = none) :
    let r := (NewRedisLock memClient).NewLock key ⟨0, 0, 0⟩ st
    r.locker = some ⟨memClient, key⟩ ∧ r.err = none ∧
    setNXCalls r.trace = 1 ∧ storeCalls r.trace = 1 ∧
    r.trace = [.newTimer 100000000, .setNX key 1 300000000000, .stopTimer] ∧
    r.state = (key, ⟨1, 300 * Second⟩) :: st ∧
    Store.get r.state key = some ⟨1, 300000000000⟩ ∧
    (∀ k, k ≠ key → Store.get r.state k = Store.get st k) := by
  intro r
  have hr : r = _ := newLock_mem_absent key ⟨0, 0, 0⟩ st h
  rw [hr]
  refine ⟨rfl, rfl, rfl, rfl, rfl, rfl, ?_, ?_⟩
  · exact Store.get_cons_self key _ st
  · intro k hk
    exact Store.get_cons_ne key k _ st hk

/-- C5, at a concrete input: the key `lock` on a store holding only `other`. -/
theorem newLock_mem_default_witness :
    Store.get [("other", ⟨1, 0⟩)] "lock" = none ∧
    ((NewRedisLock memClient).NewLock "lock" ⟨0, 0, 0⟩ [("other", ⟨1, 0⟩)]).state =
      [("lock", ⟨1, 300000000000⟩), ("other", ⟨1, 0⟩)] :=
  ⟨by decide, (newLock_mem_default "lock" [("other", ⟨1, 0⟩)] (by decide)).2.2.2.2.2.1⟩

/-- C6: on the in-memory store, once a `NewLock` on a key has succeeded,
every later `NewLock` on that key, whatever its options, returns no handle
and the "key exist" error and leaves the store unchanged; and any sequence of
`NewLock` calls on one key, from any store, has at most one success. -/
theorem newLock_mem_exclusive (key : String) (opts : RedisLockOptions) (st : Store)
    (later : List RedisLockOptions)
    (h : ((NewRedisLock memClient).NewLock key opts st).locker.isSome) :
    (∀ r, r ∈ runNewLocks memClient key later
        ((NewRedisLock memClient).NewLock key opts st).state →
      r.locker = none ∧
      r.err = some (.errorString ("NewLock redis lock " ++ key ++ " key exist")) ∧
      r.state = ((NewRedisLock memClient).NewLock key opts st).state) ∧
    (∀ opts2 : RedisLockOptions,
      ((NewRedisLock memClient).NewLock key opts2
        ((NewRedisLock memClient).NewLock key opts st).state).locker = none ∧
      ((NewRedisLock memClient).NewLock key opts2
        ((NewRedisLock memClient).NewLock key opts st).state).err =
        some (.errorString ("NewLock redis lock " ++ key ++ " key exist")) ∧
      ((NewRedisLock memClient).NewLock key opts2
        ((NewRedisLock memClient).NewLock key opts st).state).state =
        ((NewRedisLock memClient).NewLock key opts st).state) ∧
    (∀ (all : List RedisLockOptions) (st0 : Store),
      (runNewLocks memClient key all st0).countP (fun r => r.locker.isSome) ≤ 1) := by
  have hpresent : ∃ e, Store.get ((NewRedisLock memClient).NewLock key opts st).state key =
      some e := by
    cases hget : Store.get st key with
    | none =>
      rw [newLock_mem_absent key opts st hget]
      exact ⟨_, Store.get_cons_self key _ st⟩
    | some e =>
      rw [newLock_mem_present key opts st e hget] at h
      exact absurd h (by simp)
  obtain ⟨e, he⟩ := hpresent
  refine ⟨?_, ?_, fun all st0 => runNewLocks_count key all st0⟩
  · intro r hr
    exact runNewLocks_present key _ e he later r hr
  · intro opts2
    rw [newLock_mem_present key opts2 _ e he]
    exact ⟨rfl, rfl, rfl⟩

/-- C6, at a concrete input: two calls with `RetryCount = 0` on the key `lock`
from the empty store; the second fails with the "key exist" error. -/
theorem newLock_mem_exclusive_witness :
    ((NewRedisLock memClient).NewLock "lock" ⟨0, 0, 0⟩ []).locker.isSome ∧
    ((NewRedisLock memClient).NewLock "lock" ⟨0, 0, 0⟩
      ((NewRedisLock memClient).NewLock "lock" ⟨0, 0, 0⟩ []).state).err =
      some (.errorString "NewLock redis lock lock key exist") :=
  have hs : ((NewRedisLock memClient).NewLock "lock" ⟨0, 0, 0⟩ []).locker.isSome := by
    rw [newLock_mem_absent "lock" ⟨0, 0, 0⟩ [] rfl]
    rfl
  ⟨hs, ((newLock_mem_exclusive "lock" ⟨0, 0, 0⟩ [] [] hs).2.1 ⟨0, 0, 0⟩).2.1⟩

/-- C7: for every handle and client state, `Unlock` makes exactly one call
`Del`, on the handle's key alone, and its error is the `Del` call's error
wrapped (none when `Del` returns none), whatever count `Del` reports.  On the
in-memory store a second `Unlock` right after the first deletes zero keys,
returns no error and leaves the store unchanged. -/
theorem unlock_spec {σ : Type} (l : Lock σ) (s : σ) (key : String) (st : Store) :
    ((l.Unlock s).trace = [.del [l.key]] ∧
      (l.Unlock s).state = (l.client.Del [l.key] s).2 ∧
      ((l.Unlock s).err ≠ none ↔ (l.client.Del [l.key] s).1.err ≠ none) ∧
      (l.Unlock s).err = (l.client.Del [l.key] s).1.err.map
        (fun e => .wrapError ("Unlock " ++ l.key ++ " key " ++ e.Error) e)) ∧
    ((Lock.Unlock ⟨memClient, key⟩ (Lock.Unlock ⟨memClient, key⟩ st).state).err = none ∧
      (Lock.Unlock ⟨memClient, key⟩ (Lock.Unlock ⟨memClient, key⟩ st).state).state =
        (Lock.Unlock ⟨memClient, key⟩ st).state ∧
      (memClient.Del [key] (Lock.Unlock ⟨memClient, key⟩ st).state).1 = ⟨0, none⟩) := by
  constructor
  · unfold Lock.Unlock
    cases herr : (l.client.Del [l.key] s).1.err with
    | none => simp [herr]
    | some e => simp [herr, Errorf_unlock_err]
  · have hfirst : (Lock.Unlock ⟨memClient, key⟩ st).state = Store.remove st key := by
      cases hget : Store.get st key with
      | none =>
        rw [Store.remove_of_get_none key st hget]
        simp [Lock.Unlock, memClient, Store.delete_absent key st hget]
      | some e => simp [Lock.Unlock, memClient, Store.delete_present key st e hget]
    rw [hfirst]
    have habs := Store.get_remove_self key st
    simp [Lock.Unlock, memClient, Store.delete_absent key _ habs]

/-- C8: for every handle and client state, `Lock` makes exactly one call
`SetNX`, on the handle's key with marker `1` and expiration `0`, and no wait;
it returns no error exactly when that call returns `(true, nil)`; a store
error is returned wrapped, and `(false, nil)` gives the "key exist" error.  On
the in-memory store it returns no error exactly when the key was absent, and
the key is then present with time-to-live `0`. -/
theorem lock_spec {σ : Type} (l : Lock σ) (s : σ) (key : String) (st : Store) :
    ((l.Lock s).trace = [.setNX l.key 1 0] ∧
      setNXCalls (l.Lock s).trace = 1 ∧ waits (l.Lock s).trace = 0 ∧
      (l.Lock s).state = (l.client.SetNX l.key 1 0 s).2 ∧
      ((l.Lock s).err = none ↔ (l.client.SetNX l.key 1 0 s).1 = acquired) ∧
      (∀ e, (l.client.SetNX l.key 1 0 s).1.err = some e →
        (l.Lock s).err = some (.wrapError ("Lock " ++ l.key ++ " key " ++ e.Error) e)) ∧
      ((l.client.SetNX l.key 1 0 s).1 = contended →
        (l.Lock s).err =
          some (.errorString ("Lock redis lock " ++ l.key ++ " key exist")))) ∧
    (((Lock.Lock ⟨memClient, key⟩ st).err = none ↔ Store.get st key = none) ∧
      (Store.get st key = none →
        (Lock.Lock ⟨memClient, key⟩ st).state = (key, ⟨1, 0⟩) :: st)) := by
  constructor
  · unfold Lock.Lock
    rcases hcall : (l.client.SetNX l.key 1 0 s).1 with ⟨v, e⟩
    cases e with
    | some err => simp [hcall, Errorf_lock_err, acquired, contended, setNXCalls, waits]
    | none =>
      cases v with
      | true => simp [hcall, acquired, contended, setNXCalls, waits]
      | false =>
        simp [hcall, acquired, contended, setNXCalls, waits, Errorf_lock_exist, lockKeyExist]
  · cases hget : Store.get st key with
    | none =>
      simp [Lock.Lock, memClient, Store.createIfAbsent_absent key 1 0 st hget, acquired]
    | some e =>
      simp [Lock.Lock, memClient, Store.createIfAbsent_present key 1 0 st e hget, contended]

/-- C8, at a concrete input: `Lock` on the key `lock` against a client whose
`SetNX` answers "exists". -/
theorem lock_spec_witness :
    (Lock.Lock ⟨scriptedClient (fun _ => contended) (fun _ => ⟨0, none⟩), "lock"⟩ 0).err =
      some (.errorString "Lock redis lock lock key exist") ∧
    (Lock.Lock ⟨memClient, "lock"⟩ []).state = [("lock", ⟨1, 0⟩)] :=
  have h := lock_spec
    ⟨scriptedClient (fun _ => contended) (fun _ => ⟨0, none⟩), "lock"⟩ 0 "lock" []
  ⟨h.1.2.2.2.2.2.2 rfl, h.2.2 rfl⟩

/-- C9: on the in-memory store, for every handle: `Unlock` succeeds, the
`Lock` that follows succeeds and creates the key, and a further `Lock` right
after it returns the "key exist" error and leaves the store unchanged. -/
theorem lock_after_unlock (key : String) (st : Store) :
    let l : Lock Store := ⟨memClient, key⟩
    let r1 := l.Unlock st
    let r2 := l.Lock r1.state
    let r3 := l.Lock r2.state
    r1.err = none ∧ r2.err = none ∧ Store.get r2.state key = some ⟨1, 0⟩ ∧
    r3.err = some (.errorString ("Lock redis lock " ++ key ++ " key exist")) ∧
    r3.state = r2.state := by
  intro l r1 r2 r3
  have h1 : r1 = ⟨none, Store.remove st key, [.del [key]]⟩ := by
    show Lock.Unlock ⟨memClient, key⟩ st = _
    cases hget : Store.get st key with
    | none =>
      rw [Store.remove_of_get_none key st hget]
      simp [Lock.Unlock, memClient, Store.delete_absent key st hget]
    | some e => simp [Lock.Unlock, memClient, Store.delete_present key st e hget]
  have habs := Store.get_remove_self key st
  have h2 : r2 = ⟨none, (key, ⟨1, 0⟩) :: Store.remove st key, [.setNX key 1 0]⟩ := by
    show Lock.Lock ⟨memClient, key⟩ r1.state = _
    rw [h1]
    simp [Lock.Lock, memClient, Store.createIfAbsent_absent key 1 0 _ habs, acquired]
  have hpres := Store.get_cons_self key ⟨1, 0⟩ (Store.remove st key)
  have h3 : r3 = ⟨some (lockKeyExist key), (key, ⟨1, 0⟩) :: Store.remove st key,
      [.setNX key 1 0]⟩ := by
    show Lock.Lock ⟨memClient, key⟩ r2.state = _
    rw [h2]
    simp [Lock.Lock, memClient, Store.createIfAbsent_present key 1 0 _ _ hpres, contended,
      Errorf_lock_exist]
  rw [h1, h2, h3]
  exact ⟨rfl, rfl, hpres, rfl, rfl⟩

/-- C10: on the in-memory store, for every key absent from the store and
every `KeyExpiration` `T`: `NewLock(key, {KeyExpiration: T})` returns a
handle; the `Del` that `Unlock` on this handle makes reports exactly 1 key
deleted, `Unlock` returns no error and leaves the store equal to the initial
one; and a `NewLock` on the same key right after, whatever its options,
returns a handle after exactly one call `SetNX`. -/
theorem newLock_unlock_newLock (key : String) (T : Int) (opts2 : RedisLockOptions)
    (st : Store) (h : Store.get st key = none) :
    ∃ l : Lock Store,
      ((NewRedisLock memClient).NewLock key ⟨0, 0, T⟩ st).locker = some l ∧
      (l.client.Del [l.key] ((NewRedisLock memClient).NewLock key ⟨0, 0, T⟩ st).state).1 =
        ⟨1, none⟩ ∧
      (l.Unlock ((NewRedisLock memClient).NewLock key ⟨0, 0, T⟩ st).state).trace =
        [.del [key]] ∧
      (l.Unlock ((NewRedisLock memClient).NewLock key ⟨0, 0, T⟩ st).state).err = none ∧
      (l.Unlock ((NewRedisLock memClient).NewLock key ⟨0, 0, T⟩ st).state).state = st ∧
      ((NewRedisLock memClient).NewLock key opts2
        (l.Unlock ((NewRedisLock memClient).NewLock key ⟨0, 0, T⟩ st).state).state).locker =
        some ⟨memClient, key⟩ ∧
      ((NewRedisLock memClient).NewLock key opts2
        (l.Unlock ((NewRedisLock memClient).NewLock key ⟨0, 0, T⟩ st).state).state).err =
        none ∧
      setNXCalls ((NewRedisLock memClient).NewLock key opts2
        (l.Unlock ((NewRedisLock memClient).NewLock key ⟨0, 0, T⟩ st).state).state).trace =
        1 := by
  refine ⟨⟨memClient, key⟩, ?_⟩
  rw [newLock_mem_absent key ⟨0, 0, T⟩ st h]
  have hpres := Store.get_cons_self key ⟨1, (RedisLockOptions.init ⟨0, 0, T⟩).KeyExpiration⟩ st
  have hdel := Store.delete_present key _ _ hpres
  rw [Store.remove_cons_self, Store.remove_of_get_none key st h] at hdel
  have hun : Lock.Unlock ⟨memClient, key⟩
      ((key, (⟨1, (RedisLockOptions.init ⟨0, 0, T⟩).KeyExpiration⟩ : Entry)) :: st) =
      ⟨none, st, [.del [key]]⟩ := by
    simp [Lock.Unlock, memClient, hdel]
  rw [hun, newLock_mem_absent key opts2 st h]
  refine ⟨rfl, ?_, rfl, rfl, rfl, rfl, rfl, setNXCalls_newLockTrace key opts2.init 0⟩
  show (Store.delete [key] _).1 = _
  rw [hdel]

/-- C10, at a concrete input: the key `lock`, `T = 5s`, from the empty store. -/
theorem newLock_unlock_newLock_witness :
    Store.get [] "lock" = none ∧
    ∃ l : Lock Store,
      ((NewRedisLock memClient).NewLock "lock" ⟨0, 0, 5000000000⟩ []).locker = some l ∧
      (l.Unlock ((NewRedisLock memClient).NewLock "lock" ⟨0, 0, 5000000000⟩ []).state).state =
        [] :=
  ⟨rfl,
    (newLock_unlock_newLock "lock" 5000000000 ⟨0, 0, 0⟩ [] rfl).elim
      (fun l hl => ⟨l, hl.1, hl.2.2.2.2.1⟩)⟩

/-! The shape of every run -/

section Shape

variable {σ : Type} (client : RedisLockClient σ) (key : String) (opts : RedisLockOptions)

/-- Every `NewLock` call makes some number `n + 1` of attempts within the
budget, performs the events of `n` retries and a last attempt, and returns
either the handle with no error or no handle with the failure of attempt
number `n`. -/
theorem newLock_outcome (s : σ) :
    ∃ n, n < budget (wrap32 (opts.init.RetryCount + 1)) ∧
      ((NewRedisLock client).NewLock key opts s).trace = newLockTrace key opts.init n ∧
      ((NewRedisLock client).NewLock key opts s).state =
        stateAfter client key opts.init.KeyExpiration (n + 1) s ∧
      ((((NewRedisLock client).NewLock key opts s).locker = some ⟨client, key⟩ ∧
          ((NewRedisLock client).NewLock key opts s).err = none) ∨
        (((NewRedisLock client).NewLock key opts s).locker = none ∧
          ((NewRedisLock client).NewLock key opts s).err =
            some (newLockFailure key
              (responseAt client key opts.init.KeyExpiration s n)))) := by
  have hpos := budget_pos (wrap32 (opts.init.RetryCount + 1))
  by_cases hex : ∃ i, i ≤ budget (wrap32 (opts.init.RetryCount + 1)) - 1 ∧
      responseAt client key opts.init.KeyExpiration s i = acquired
  · obtain ⟨i, hi, hacq, hbefore⟩ := exists_first_acquired _ _ hex
    refine ⟨i, by omega, ?_⟩
    rw [newLock_first_acquired client key opts s i (by omega) hacq hbefore]
    exact ⟨rfl, rfl, Or.inl ⟨rfl, rfl⟩⟩
  · refine ⟨budget (wrap32 (opts.init.RetryCount + 1)) - 1, by omega, ?_⟩
    rw [newLock_none_acquired client key opts s _ (by omega)
      (fun j hj hacq => hex ⟨j, hj, hacq⟩)]
    exact ⟨rfl, rfl, Or.inr ⟨rfl, rfl⟩⟩

/-- The events of `n` retries are `n` copies of one attempt, one receive on the
timer channel and one re-arming of the timer. -/
theorem retries_eq_flatten (n : Nat) :
    retries key opts n =
      (List.replicate n
        [Event.setNX key 1 opts.KeyExpiration, Event.recvTimer,
          Event.resetTimer opts.RetryDelay]).flatten := by
  induction n with
  | zero => rfl
  | succ n ih => simp [retries, List.replicate_succ, ih]

/-- Every event of a `NewLock` trace is one of five, all fixed by the key and
the resolved options. -/
theorem mem_newLockTrace (n : Nat) (e : Event) (h : e ∈ newLockTrace key opts n) :
    e ∈ [Event.newTimer opts.RetryDelay, Event.setNX key 1 opts.KeyExpiration,
      Event.recvTimer, Event.resetTimer opts.RetryDelay, Event.stopTimer] := by
  have hret : ∀ m, e ∈ retries key opts m →
      e = Event.setNX key 1 opts.KeyExpiration ∨ e = Event.recvTimer ∨
        e = Event.resetTimer opts.RetryDelay := by
    intro m
    induction m with
    | zero => simp [retries]
    | succ m ih =>
      intro hm
      simp only [retries, List.mem_append, List.mem_cons, List.mem_singleton,
        List.not_mem_nil, or_false] at hm
      rcases hm with (h1 | h1 | h1) | h1
      · exact Or.inl h1
      · exact Or.inr (Or.inl h1)
      · exact Or.inr (Or.inr h1)
      · exact ih h1
  simp only [newLockTrace, List.mem_cons, List.mem_append, List.mem_singleton,
    List.not_mem_nil, or_false] at h
  simp only [List.mem_cons, List.mem_singleton, List.not_mem_nil, or_false]
  rcases h with (h | h | h) | h
  · exact Or.inl h
  · rcases hret n h with h1 | h1 | h1
    · exact Or.inr (Or.inl h1)
    · exact Or.inr (Or.inr (Or.inl h1))
    · exact Or.inr (Or.inr (Or.inr (Or.inl h1)))
  · exact Or.inr (Or.inl h)
  · exact Or.inr (Or.inr (Or.inr (Or.inr h)))

end Shape

/-! Errors -/

/-- C11: at a concrete input, the key `resource-42` against a store whose every
call fails with `connection refused`.  All three operations return an error
that wraps the store's error and whose text starts with the operation name;
the texts of `Lock` and `Unlock` contain the key, the text of `NewLock` is
`NewLock err connection refused` and does not. -/
theorem newLock_store_error_omits_key :
    ((NewRedisLock (scriptedClient
        (fun _ => ⟨false, some (.errorString "connection refused")⟩)
        (fun _ => ⟨0, some (.errorString "connection refused")⟩))).NewLock
      "resource-42" ⟨0, 0, 0⟩ 0).err =
      some (.wrapError "NewLock err connection refused"
        (.errorString "connection refused")) ∧
    GoError.Unwrap (.wrapError "NewLock err connection refused"
        (.errorString "connection refused")) = some (.errorString "connection refused") ∧
    occursIn "NewLock" "NewLock err connection refused" ∧
    ¬ occursIn "resource-42" "NewLock err connection refused" ∧
    (Lock.Lock ⟨scriptedClient
        (fun _ => ⟨false, some (.errorString "connection refused")⟩)
        (fun _ => ⟨0, some (.errorString "connection refused")⟩), "resource-42"⟩ 0).err =
      some (.wrapError "Lock resource-42 key connection refused"
        (.errorString "connection refused")) ∧
    occursIn "resource-42" "Lock resource-42 key connection refused" ∧
    (Lock.Unlock ⟨scriptedClient
        (fun _ => ⟨false, some (.errorString "connection refused")⟩)
        (fun _ => ⟨0, some (.errorString "connection refused")⟩), "resource-42"⟩ 0).err =
      some (.wrapError "Unlock resource-42 key connection refused"
        (.errorString "connection refused")) ∧
    occursIn "resource-42" "Unlock resource-42 key connection refused" := by
  refine ⟨?_, rfl, by decide, by decide, ?_, by decide, ?_, by decide⟩
  · rw [newLock_none_acquired _ "resource-42" ⟨0, 0, 0⟩ 0 0 (by decide)
      (fun j _ => by simp [responseAt, scriptedClient, acquired])]
    rfl
  · simp [Lock.Lock, scriptedClient, Errorf_lock_err]
    rfl
  · simp [Lock.Unlock, scriptedClient, Errorf_unlock_err]
    rfl

/-- C12: for a retry count `N` with `0 ≤ N` (an `int32`), when none of the
first `N + 1` responses is `(true, nil)`, in whatever order store errors and
`(false, nil)` come, `NewLock` makes exactly `N + 1` calls `SetNX`, returns no
handle, and its error is decided by response number `N + 1` alone: a store
error `e` there gives the error wrapping `e`, no store error there gives the
"key exist" error, and the two are different errors. -/
theorem newLock_all_failed {σ : Type} (client : RedisLockClient σ) (key : String)
    (opts : RedisLockOptions) (s : σ)
    (h0 : 0 ≤ opts.RetryCount) (h1 : opts.RetryCount ≤ 2147483647)
    (hfail : ∀ j, j ≤ opts.RetryCount.toNat →
      responseAt client key opts.init.KeyExpiration s j ≠ acquired) :
    let r := (NewRedisLock client).NewLock key opts s
    let last := responseAt client key opts.init.KeyExpiration s opts.RetryCount.toNat
    setNXCalls r.trace = opts.RetryCount.toNat + 1 ∧
    storeCalls r.trace = opts.RetryCount.toNat + 1 ∧
    r.state = stateAfter client key opts.init.KeyExpiration (opts.RetryCount.toNat + 1) s ∧
    r.locker = none ∧
    (∀ e, last.err = some e →
      r.err = some (.wrapError ("NewLock err " ++ e.Error) e) ∧
      (GoError.wrapError ("NewLock err " ++ e.Error) e).Unwrap = some e) ∧
    (last.err = none →
      r.err = some (.errorString ("NewLock redis lock " ++ key ++ " key exist")) ∧
      (GoError.errorString ("NewLock redis lock " ++ key ++ " key exist")).Unwrap = none) ∧
    (∀ e, GoError.wrapError ("NewLock err " ++ e.Error) e ≠
      .errorString ("NewLock redis lock " ++ key ++ " key exist")) := by
  intro r last
  have hb : budget (wrap32 (opts.init.RetryCount + 1)) = opts.RetryCount.toNat + 1 := by
    rw [init_RetryCount]
    exact budget_init opts.RetryCount h0 h1
  have hr : r = _ := newLock_none_acquired client key opts s _ hb hfail
  rw [hr]
  refine ⟨setNXCalls_newLockTrace key opts.init _, storeCalls_newLockTrace key opts.init _,
    rfl, rfl, ?_, ?_, ?_⟩
  · intro e he
    have he' : (responseAt client key opts.init.KeyExpiration s opts.RetryCount.toNat).err =
        some e := he
    simp [newLockFailure, he', GoError.Unwrap]
  · intro he
    have he' : (responseAt client key opts.init.KeyExpiration s opts.RetryCount.toNat).err =
        none := he
    simp [newLockFailure, he', newLockKeyExist, GoError.Unwrap]
  · intro e h
    cases h

/-- C12, at a concrete input: `RetryCount = 1` against a store that answers a
store error and then "exists": two calls, and the "key exist" error. -/
theorem newLock_all_failed_witness :
    (0 ≤ (RedisLockOptions.mk 1 0 0).RetryCount) ∧
    ((RedisLockOptions.mk 1 0 0).RetryCount ≤ 2147483647) ∧
    setNXCalls ((NewRedisLock (scriptedClient
        (fun n => if n = 0 then ⟨false, some (.errorString "boom")⟩ else contended)
        (fun _ => ⟨0, none⟩))).NewLock "lock" ⟨1, 0, 0⟩ 0).trace = 2 ∧
    ((NewRedisLock (scriptedClient
        (fun n => if n = 0 then ⟨false, some (.errorString "boom")⟩ else contended)
        (fun _ => ⟨0, none⟩))).NewLock "lock" ⟨1, 0, 0⟩ 0).err =
      some (.errorString "NewLock redis lock lock key exist") :=
  have h := newLock_all_failed
    (scriptedClient
      (fun n => if n = 0 then ⟨false, some (.errorString "boom")⟩ else contended)
      (fun _ => ⟨0, none⟩))
    "lock" ⟨1, 0, 0⟩ 0 (by decide) (by decide) (by decide)
  ⟨by decide, by decide, h.1, (h.2.2.2.2.2.1 rfl).1⟩

/-! Release without ownership, and the timing of retries -/

/-- C13: on the in-memory store with its expiration step, from the empty
store: holder A acquires `k` with the default options, `300s` pass and `k`
expires, holder B acquires `k` with `NewLock`, A calls `Unlock` on its old
handle, which returns no error and removes B's key, and a third `NewLock` on
`k` then succeeds.  In general, for every key and store, `Unlock` returns no
error and the key is absent afterwards. -/
theorem stale_unlock_evicts :
    (let a := (NewRedisLock memClient).NewLock "k" ⟨0, 0, 0⟩ []
     let expired := Store.elapse (300 * Second) a.state
     let b := (NewRedisLock memClient).NewLock "k" ⟨0, 0, 0⟩ expired
     let u := Lock.Unlock ⟨memClient, "k"⟩ b.state
     let c := (NewRedisLock memClient).NewLock "k" ⟨0, 0, 0⟩ u.state
     a.locker = some ⟨memClient, "k"⟩ ∧ a.err = none ∧
     Store.get a.state "k" = some ⟨1, 300000000000⟩ ∧
     Store.get expired "k" = none ∧
     b.locker = some ⟨memClient, "k"⟩ ∧ b.err = none ∧
     Store.get b.state "k" = some ⟨1, 300000000000⟩ ∧
     u.err = none ∧ u.trace = [.del ["k"]] ∧ Store.get u.state "k" = none ∧
     c.locker = some ⟨memClient, "k"⟩ ∧ c.err = none) ∧
    (∀ (key : String) (st : Store),
      (Lock.Unlock ⟨memClient, key⟩ st).err = none ∧
      Store.get (Lock.Unlock ⟨memClient, key⟩ st).state key = none) := by
  have hunlock : ∀ (key : String) (st : Store),
      Lock.Unlock ⟨memClient, key⟩ st = ⟨none, Store.remove st key, [.del [key]]⟩ := by
    intro key st
    cases hget : Store.get st key with
    | none =>
      rw [Store.remove_of_get_none key st hget]
      simp [Lock.Unlock, memClient, Store.delete_absent key st hget]
    | some e => simp [Lock.Unlock, memClient, Store.delete_present key st e hget]
  constructor
  · intro a expired b u c
    have ha : a = ⟨some ⟨memClient, "k"⟩, none, [("k", ⟨1, 300000000000⟩)],
        newLockTrace "k" (RedisLockOptions.init ⟨0, 0, 0⟩) 0⟩ :=
      newLock_mem_absent "k" ⟨0, 0, 0⟩ [] rfl
    have hexp : expired = [] := by
      show Store.elapse (300 * Second) a.state = []
      rw [ha]
      decide
    have hb : b = ⟨some ⟨memClient, "k"⟩, none, [("k", ⟨1, 300000000000⟩)],
        newLockTrace "k" (RedisLockOptions.init ⟨0, 0, 0⟩) 0⟩ := by
      show (NewRedisLock memClient).NewLock "k" ⟨0, 0, 0⟩ expired = _
      rw [hexp]
      exact newLock_mem_absent "k" ⟨0, 0, 0⟩ [] rfl
    have hu : u = ⟨none, [], [.del ["k"]]⟩ := by
      show Lock.Unlock ⟨memClient, "k"⟩ b.state = _
      rw [hb, hunlock]
      rfl
    have hc : c = ⟨some ⟨memClient, "k"⟩, none, [("k", ⟨1, 300000000000⟩)],
        newLockTrace "k" (RedisLockOptions.init ⟨0, 0, 0⟩) 0⟩ := by
      show (NewRedisLock memClient).NewLock "k" ⟨0, 0, 0⟩ u.state = _
      rw [hu]
      exact newLock_mem_absent "k" ⟨0, 0, 0⟩ [] rfl
    rw [ha, hexp, hb, hu, hc]
    exact ⟨rfl, rfl, rfl, rfl, rfl, rfl, rfl, rfl, rfl, rfl, rfl, rfl⟩
  · intro key st
    rw [hunlock]
    exact ⟨rfl, Store.get_remove_self key st⟩

/-- C14: the trace of every `NewLock` call is: the timer armed with the
resolved `RetryDelay`; then, for some `n`, `n` times an attempt followed by one
receive on the timer channel and one re-arming of the timer with the same
resolved `RetryDelay`; then a last attempt and the stopping of the timer.  So
a call that makes `n + 1` attempts performs exactly `n` waits, one between each
two consecutive attempts, none before the first and none after the last. -/
theorem newLock_waits {σ : Type} (client : RedisLockClient σ) (key : String)
    (opts : RedisLockOptions) (s : σ) :
    ∃ n,
      ((NewRedisLock client).NewLock key opts s).trace =
        [Event.newTimer opts.init.RetryDelay] ++
          (List.replicate n
            [Event.setNX key 1 opts.init.KeyExpiration, Event.recvTimer,
              Event.resetTimer opts.init.RetryDelay]).flatten ++
          [Event.setNX key 1 opts.init.KeyExpiration, Event.stopTimer] ∧
      setNXCalls ((NewRedisLock client).NewLock key opts s).trace = n + 1 ∧
      waits ((NewRedisLock client).NewLock key opts s).trace = n := by
  obtain ⟨n, _, htrace, _, _⟩ := newLock_outcome client key opts s
  refine ⟨n, ?_, ?_, ?_⟩
  · rw [htrace, ← retries_eq_flatten]
    simp [newLockTrace]
  · rw [htrace]
    exact setNXCalls_newLockTrace key opts.init n
  · rw [htrace]
    exact waits_newLockTrace key opts.init n

/-- C15: with `RetryCount = 2147483647` the counter `attempts` starts at
`-2147483648` (the sum wraps), its first decrement wraps to `2147483647`, and
when no response is `(true, nil)` `NewLock` makes exactly `2147483648` calls
`SetNX`, with `2147483647` waits, before it returns no handle and an error. -/
theorem newLock_max_retryCount {σ : Type} (client : RedisLockClient σ) (key : String)
    (delay expiration : Int) (s : σ)
    (hfail : ∀ j, responseAt client key
      (RedisLockOptions.init ⟨2147483647, delay, expiration⟩).KeyExpiration s j ≠ acquired) :
    let r := (NewRedisLock client).NewLock key ⟨2147483647, delay, expiration⟩ s
    wrap32 (2147483647 + 1) = -2147483648 ∧
    wrap32 (-2147483648 - 1) = 2147483647 ∧
    setNXCalls r.trace = 2147483648 ∧
    waits r.trace = 2147483647 ∧
    r.locker = none ∧ r.err ≠ none := by
  intro r
  have hb : budget (wrap32
      ((RedisLockOptions.init ⟨2147483647, delay, expiration⟩).RetryCount + 1)) =
      2147483647 + 1 := by
    rw [init_RetryCount]
    exact budget_init 2147483647 (by decide) (by decide)
  have hr : r = _ := newLock_none_acquired client key ⟨2147483647, delay, expiration⟩ s
    2147483647 hb (fun j _ => hfail j)
  rw [hr]
  refine ⟨by decide, by decide, setNXCalls_newLockTrace key _ _, waits_newLockTrace key _ _,
    rfl, by simp⟩

/-- C15, at a concrete input: a store that always answers "exists". -/
theorem newLock_max_retryCount_witness :
    (∀ j, responseAt (scriptedClient (fun _ => contended) (fun _ => ⟨0, none⟩)) "lock"
      (RedisLockOptions.init ⟨2147483647, 0, 0⟩).KeyExpiration 0 j ≠ acquired) ∧
    setNXCalls ((NewRedisLock (scriptedClient (fun _ => contended)
        (fun _ => ⟨0, none⟩))).NewLock "lock" ⟨2147483647, 0, 0⟩ 0).trace = 2147483648 :=
  have hfail : ∀ j, responseAt (scriptedClient (fun _ => contended) (fun _ => ⟨0, none⟩))
      "lock" (RedisLockOptions.init ⟨2147483647, 0, 0⟩).KeyExpiration 0 j ≠ acquired :=
    fun _ => by simp [responseAt, scriptedClient, contended, acquired]
  ⟨hfail, (newLock_max_retryCount (scriptedClient (fun _ => contended) (fun _ => ⟨0, none⟩))
    "lock" 0 0 0 hfail).2.2.1⟩

/-! Default resolution, nil options and negative retry counts -/

/-- C16: `init` leaves `RetryCount` unchanged, leaves a non-zero `RetryDelay`
and a non-zero `KeyExpiration` unchanged (negative ones included), turns a zero
`RetryDelay` into `100ms` and a zero `KeyExpiration` into `300s`, and applied
twice gives what it gives applied once.  Every event of every `NewLock` trace
carries the resolved values: each attempt is `SetNX(key, 1, KeyExpiration)` and
each arming of the timer is with `RetryDelay`, both of `opts.init`. -/
theorem init_resolution {σ : Type} (client : RedisLockClient σ) (key : String)
    (opts : RedisLockOptions) (s : σ) :
    opts.init.RetryCount = opts.RetryCount ∧
    (opts.RetryDelay ≠ 0 → opts.init.RetryDelay = opts.RetryDelay) ∧
    (opts.RetryDelay = 0 → opts.init.RetryDelay = 100 * Millisecond) ∧
    (opts.KeyExpiration ≠ 0 → opts.init.KeyExpiration = opts.KeyExpiration) ∧
    (opts.KeyExpiration = 0 → opts.init.KeyExpiration = 300 * Second) ∧
    opts.init.init = opts.init ∧
    (∀ e, e ∈ ((NewRedisLock client).NewLock key opts s).trace →
      e ∈ [Event.newTimer opts.init.RetryDelay, Event.setNX key 1 opts.init.KeyExpiration,
        Event.recvTimer, Event.resetTimer opts.init.RetryDelay, Event.stopTimer]) := by
  refine ⟨init_RetryCount opts, ?_, ?_, ?_, ?_, ?_, ?_⟩
  · intro h
    rw [init_eq]
    simp [h]
  · intro h
    rw [init_eq]
    simp [h]
  · intro h
    rw [init_eq]
    simp [h]
  · intro h
    rw [init_eq]
    simp [h]
  · rw [init_eq opts.init, init_eq opts]
    by_cases hd : opts.RetryDelay = 0 <;> by_cases he : opts.KeyExpiration = 0 <;>
      simp [hd, he, Millisecond, Second]
  · intro e he
    obtain ⟨n, _, htrace, _, _⟩ := newLock_outcome client key opts s
    rw [htrace] at he
    exact mem_newLockTrace key opts.init n e he

/-- C16, at a concrete input: `{RetryCount: 5, RetryDelay: -3ns, KeyExpiration: 0}`
resolves to `{5, -3ns, 300s}`. -/
theorem init_resolution_witness :
    (RedisLockOptions.mk 5 (-3) 0).RetryDelay ≠ 0 ∧
    (RedisLockOptions.mk 5 (-3) 0).KeyExpiration = 0 ∧
    (RedisLockOptions.init ⟨5, -3, 0⟩).RetryDelay = -3 ∧
    (RedisLockOptions.init ⟨5, -3, 0⟩).KeyExpiration = 300 * Second :=
  have h := init_resolution memClient "lock" ⟨5, -3, 0⟩ []
  ⟨by decide, rfl, h.2.1 (by decide), h.2.2.2.2.1 rfl⟩

/-- C17, as stated, fails: `NewLock` called with a nil `opts` does not return;
`opts.init()` dereferences the nil pointer and the call panics, before any
store call. -/
theorem newLock_nil_opts_panics :
    (NewRedisLock memClient).NewLockPtr "lock" none [] =
      .panicked "invalid memory address or nil pointer dereference" ∧
    ¬ ∃ r, (NewRedisLock memClient).NewLockPtr "lock" none [] = .returned r := by
  constructor
  · rfl
  · rintro ⟨r, hr⟩
    cases hr

/-- C17, amended: for every key, every non-nil `opts` and every client and
client state, `NewLock` returns, with either the handle and no error, or no
handle and one of its two errors (the store's error wrapped behind
`NewLock err `, or `NewLock redis lock <key> key exist`).  For every handle and
client state, `Lock` returns no error or one of its two errors, and `Unlock`
returns no error or the store's error wrapped. -/
theorem newLock_returns {σ : Type} (client : RedisLockClient σ) (key : String)
    (opts : RedisLockOptions) (s : σ) (l : Lock σ) (t : σ) :
    (∃ r, (NewRedisLock client).NewLockPtr key (some opts) s = .returned r ∧
      ((r.locker = some ⟨client, key⟩ ∧ r.err = none) ∨
        (r.locker = none ∧
          ((∃ e, r.err = some (.wrapError ("NewLock err " ++ e.Error) e)) ∨
            r.err = some (.errorString ("NewLock redis lock " ++ key ++ " key exist")))))) ∧
    ((l.Lock t).err = none ∨
      (∃ e, (l.Lock t).err = some (.wrapError ("Lock " ++ l.key ++ " key " ++ e.Error) e)) ∨
      (l.Lock t).err = some (.errorString ("Lock redis lock " ++ l.key ++ " key exist"))) ∧
    ((l.Unlock t).err = none ∨
      ∃ e, (l.Unlock t).err =
        some (.wrapError ("Unlock " ++ l.key ++ " key " ++ e.Error) e)) := by
  refine ⟨⟨(NewRedisLock client).NewLock key opts s, rfl, ?_⟩, ?_, ?_⟩
  · obtain ⟨n, _, _, _, hout⟩ := newLock_outcome client key opts s
    rcases hout with hok | ⟨hnone, herr⟩
    · exact Or.inl hok
    · refine Or.inr ⟨hnone, ?_⟩
      rw [herr]
      cases hlast : (responseAt client key opts.init.KeyExpiration s n).err with
      | some e => exact Or.inl ⟨e, by simp [newLockFailure, hlast]⟩
      | none => exact Or.inr (by simp [newLockFailure, hlast, newLockKeyExist])
  · unfold Lock.Lock
    rcases hcall : (l.client.SetNX l.key 1 0 t).1 with ⟨v, e⟩
    cases e with
    | some err => exact Or.inr (Or.inl ⟨err, by simp [hcall, Errorf_lock_err]⟩)
    | none =>
      cases v with
      | true => exact Or.inl (by simp [hcall])
      | false => exact Or.inr (Or.inr (by simp [hcall, Errorf_lock_exist, lockKeyExist]))
  · unfold Lock.Unlock
    cases herr : (l.client.Del [l.key] t).1.err with
    | none => exact Or.inl (by simp [herr])
    | some e => exact Or.inr ⟨e, by simp [herr, Errorf_unlock_err]⟩

/-- C18: for every negative `int32` `RetryCount`, whatever the retry delay,
the key expiration, the client and its state, `NewLock` returns exactly what
it returns with `RetryCount = 0`, events included: the timer is armed, one
call `SetNX` is made, the timer is stopped, with no wait; `(true, nil)` gives
the handle and no error, any other response gives no handle and an error. -/
theorem newLock_negative_retryCount {σ : Type} (client : RedisLockClient σ) (key : String)
    (n delay expiration : Int) (s : σ) (h0 : -2147483648 ≤ n) (h1 : n < 0) :
    let opts : RedisLockOptions := ⟨n, delay, expiration⟩
    let r := (NewRedisLock client).NewLock key opts s
    let call := client.SetNX key 1 opts.init.KeyExpiration s
    r = (NewRedisLock client).NewLock key ⟨0, delay, expiration⟩ s ∧
    r.trace = [.newTimer opts.init.RetryDelay, .setNX key 1 opts.init.KeyExpiration,
      .stopTimer] ∧
    setNXCalls r.trace = 1 ∧ waits r.trace = 0 ∧
    r.state = call.2 ∧
    (call.1 = acquired → r.locker = some ⟨client, key⟩ ∧ r.err = none) ∧
    (call.1 ≠ acquired → r.locker = none ∧ r.err ≠ none) := by
  intro opts r call
  have hbn : budget (wrap32 (opts.init.RetryCount + 1)) = 0 + 1 := by
    rw [init_RetryCount]
    exact budget_init_neg n h0 h1
  have hbz : budget (wrap32
      ((RedisLockOptions.init ⟨0, delay, expiration⟩).RetryCount + 1)) = 0 + 1 := by
    rw [init_RetryCount]
    exact budget_init 0 (by decide) (by decide)
  have hke : (RedisLockOptions.init ⟨0, delay, expiration⟩).KeyExpiration =
      opts.init.KeyExpiration := by
    rw [init_eq, init_eq opts]
  have hrd : (RedisLockOptions.init ⟨0, delay, expiration⟩).RetryDelay =
      opts.init.RetryDelay := by
    rw [init_eq, init_eq opts]
  have htr : newLockTrace key (RedisLockOptions.init ⟨0, delay, expiration⟩) 0 =
      newLockTrace key opts.init 0 := by
    simp [newLockTrace, retries, hke, hrd]
  by_cases hacq : call.1 = acquired
  · have hr : r = _ :=
      newLock_first_acquired client key opts s 0 (by rw [hbn]; omega) hacq
        (fun j hj => absurd hj (Nat.not_lt_zero j))
    have hz := newLock_first_acquired client key ⟨0, delay, expiration⟩ s 0
      (by rw [hbz]; omega) (by rw [hke]; exact hacq)
      (fun j hj => absurd hj (Nat.not_lt_zero j))
    rw [hz, hke, htr, hr]
    exact ⟨rfl, rfl, rfl, rfl, rfl, fun _ => ⟨rfl, rfl⟩, fun h => absurd hacq h⟩
  · have hall : ∀ j, j ≤ 0 → responseAt client key opts.init.KeyExpiration s j ≠ acquired :=
      fun j hj => by rw [Nat.le_zero.mp hj]; exact hacq
    have hr : r = _ := newLock_none_acquired client key opts s 0 hbn hall
    have hz := newLock_none_acquired client key ⟨0, delay, expiration⟩ s 0 hbz
      (by rw [hke]; exact hall)
    rw [hz, hke, htr, hr]
    exact ⟨rfl, rfl, rfl, rfl, rfl, fun h => absurd h hacq, fun _ => ⟨rfl, by simp⟩⟩

/-- C18, at a concrete input: `RetryCount = -2147483648` against a store that
answers "exists": one call `SetNX` and no wait. -/
theorem newLock_negative_retryCount_witness :
    ((-2147483648 : Int) ≤ -2147483648) ∧ ((-2147483648 : Int) < 0) ∧
    setNXCalls ((NewRedisLock (scriptedClient (fun _ => contended)
        (fun _ => ⟨0, none⟩))).NewLock "lock" ⟨-2147483648, 0, 0⟩ 0).trace = 1 ∧
    waits ((NewRedisLock (scriptedClient (fun _ => contended)
        (fun _ => ⟨0, none⟩))).NewLock "lock" ⟨-2147483648, 0, 0⟩ 0).trace = 0 :=
  have h := newLock_negative_retryCount
    (scriptedClient (fun _ => contended) (fun _ => ⟨0, none⟩)) "lock"
    (-2147483648) 0 0 0 (by decide) (by decide)
  ⟨by decide, by decide, h.2.2.1, h.2.2.2.1⟩

end GoRedisLock
